import Mathlib

/- Shallow embedding of the llm_gateway request pipeline: the budget
   reservation engine (app/services/budget.py), rerank billing and response
   cleaning (app/routers/chat.py), usage-log cost computation
   (app/services/usage_log.py), delegation resolution
   (app/middleware/gateway.py), and cached API-key verification
   (app/services/api_key.py).  Monetary amounts are modelled as rationals;
   the fast store's float arithmetic and Python Decimal's 28-digit context
   are treated as exact. -/

namespace Gateway

/-! ## Budget reservation (app/services/budget.py) -/

/-- Embedding of the atomic Lua reservation script `_RESERVE_LUA`
(budget.py lines 21-40): read `pending` (0 when the key is absent), fail when
`db_usage + pending + estimated_cost > budget_limit`, otherwise increment
`pending` by `estimated_cost` and report success.  Returns the new pending
amount and the success flag. -/
def reserveScript (dbUsage budgetLimit estimatedCost pending : ℚ) : ℚ × Bool :=
  if dbUsage + pending + estimatedCost > budgetLimit then
    (pending, false)
  else
    (pending + estimatedCost, true)

/-- Embedding of the fast-store effect of
`BudgetReservationSystem.release_reservation` (budget.py line 104):
`INCRBYFLOAT pending_key, -estimated_cost`. -/
def releaseStep (estimatedCost pending : ℚ) : ℚ :=
  pending - estimatedCost

/-- One budget operation against a single key: a reservation attempt with its
estimated cost, or the release of a previous reservation. -/
inductive BudgetOp where
  | reserve (cost : ℚ)
  | release (cost : ℚ)

/-- The amount carried by a budget operation. -/
def BudgetOp.cost : BudgetOp → ℚ
  | .reserve c => c
  | .release c => c

/-- Pending amount after one operation, with the key's cached `db_usage` and
`budget_monthly` fixed for the schedule. -/
def budgetStep (dbUsage budgetLimit : ℚ) (pending : ℚ) : BudgetOp → ℚ
  | .reserve c => (reserveScript dbUsage budgetLimit c pending).1
  | .release c => releaseStep c pending

/-- Pending amount after a whole schedule of operations, starting from an
absent pending key (read as 0 by the script). -/
def pendingAfter (dbUsage budgetLimit : ℚ) (ops : List BudgetOp) : ℚ :=
  ops.foldl (budgetStep dbUsage budgetLimit) 0

/-- Outcome of `check_and_reserve_budget` (budget.py lines 137-181): either
the reserved estimated cost, or the HTTP error raised on reservation
failure. -/
inductive ReserveOutcome where
  | ok (estimatedCost : ℚ)
  | httpError (status : Nat) (code : String)
deriving DecidableEq

/-- Embedding of the reservation path of `check_and_reserve_budget`
(budget.py lines 163-181) for a key with a non-null budget: run the atomic
script; on failure raise HTTP 403 with error code `budget_exceeded`
(budget.py lines 169-178), on success return the estimated cost.  The first
component is the pending amount after the call. -/
def checkAndReserve (dbUsage budgetLimit estimatedCost pending : ℚ) :
    ℚ × ReserveOutcome :=
  match reserveScript dbUsage budgetLimit estimatedCost pending with
  | (p, true) => (p, .ok estimatedCost)
  | (p, false) => (p, .httpError 403 "budget_exceeded")

/-! ## Rerank billing (app/routers/chat.py lines 450-457) -/

/-- A rerank document as billed by chat.py line 453: a plain string counted by
`len(doc)`, or an object whose values are counted by `sum(len(str(v)))`;
object values are modelled by their string rendering. -/
inductive RerankDoc where
  | str (s : String)
  | obj (vals : List String)

/-- Character count of one document (chat.py line 453). -/
def RerankDoc.charLen : RerankDoc → Nat
  | .str s => s.length
  | .obj vs => (vs.map String.length).sum

/-- `total_chars`: characters of the query plus all documents
(chat.py lines 451-453). -/
def rerankTotalChars (query : String) (documents : List RerankDoc) : Nat :=
  query.length + (documents.map RerankDoc.charLen).sum

/-- `estimated_tokens = total_chars // 4` (chat.py line 454): Python floor
division. -/
def rerankEstimatedTokens (query : String) (documents : List RerankDoc) : Nat :=
  rerankTotalChars query documents / 4

/-- Token count prescribed by the spec sentence for rerank billing:
`ceil(total_chars / 4)`. -/
def rerankTokensSpecCeil (query : String) (documents : List RerankDoc) : Nat :=
  (rerankTotalChars query documents + 3) / 4

/-! ## Cost computation (app/services/usage_log.py lines 110-133) -/

/-- Pricing row of the Models table: per-1,000,000-token input and output
costs, as selected by `calculate_cost`. -/
structure ModelPricing where
  id : String
  inputCost : ℚ
  outputCost : ℚ
deriving DecidableEq

/-- `db.fetch_one("SELECT ... FROM Models WHERE id = $1", model_id)` over an
in-memory Models table: the first row with the given id. -/
def lookupModel (models : List ModelPricing) (modelId : String) :
    Option ModelPricing :=
  models.find? (fun m => m.id == modelId)

/-- Round a rational to the nearest integer, ties to even: the rounding mode
of Python `Decimal.quantize` under the default context (ROUND_HALF_EVEN). -/
def roundHalfEven (x : ℚ) : ℤ :=
  let f := ⌊x⌋
  let r := x - (f : ℚ)
  if r < 1/2 then f
  else if 1/2 < r then f + 1
  else if f % 2 = 0 then f else f + 1

/-- `total.quantize(Decimal("0.0001"))`: round to four decimal places,
ties to even. -/
def quantize4 (x : ℚ) : ℚ :=
  (roundHalfEven (x * 10000) : ℚ) / 10000

/-- Embedding of `calculate_cost` (usage_log.py lines 110-133): an unknown
model id yields cost 0; a known model yields
`input_tokens/1e6 * input_cost + output_tokens/1e6 * output_cost` quantized
to four decimal places.  Decimal context rounding of the intermediate
divisions (28 significant digits) is treated as exact. -/
def calculateCost (models : List ModelPricing) (inputTokens outputTokens : Nat)
    (modelId : String) : ℚ :=
  match lookupModel models modelId with
  | none => 0
  | some m =>
      quantize4 ((inputTokens : ℚ) / 1000000 * m.inputCost
        + (outputTokens : ℚ) / 1000000 * m.outputCost)

/-! ## Response cleaner (app/routers/chat.py lines 664-683) -/

/-- JSON values as traversed by `_clean_openai_response`: null, scalar atoms
(booleans, numbers, strings), arrays and objects (ordered key-value lists,
as Python dicts preserve insertion order). -/
inductive Json where
  | null
  | boolean (b : Bool)
  | num (q : ℚ)
  | str (s : String)
  | arr (items : List Json)
  | obj (fields : List (String × Json))

/-- Test for the Python `v is not None` filter. -/
def Json.isNull : Json → Bool
  | .null => true
  | _ => false

mutual

/-- Embedding of `_strip_none` inside `_clean_openai_response`
(chat.py lines 672-681): dictionaries drop entries whose original value is
null or whose key starts with an underscore and recurse into the kept
values; lists recurse elementwise; scalars pass through. -/
def Json.clean : Json → Json
  | .null => .null
  | .boolean b => .boolean b
  | .num q => .num q
  | .str s => .str s
  | .arr items => .arr (Json.cleanList items)
  | .obj fields => .obj (Json.cleanFields fields)

/-- List branch of `_strip_none`. -/
def Json.cleanList : List Json → List Json
  | [] => []
  | x :: xs => Json.clean x :: Json.cleanList xs

/-- Dict branch of `_strip_none`: the comprehension filter
`v is not None and not k.startswith("_")` applied to the original value,
then recursion. -/
def Json.cleanFields : List (String × Json) → List (String × Json)
  | [] => []
  | (k, v) :: rest =>
      if v.isNull || k.startsWith "_" then Json.cleanFields rest
      else (k, Json.clean v) :: Json.cleanFields rest

end

/-! ## Delegation resolution (app/middleware/gateway.py lines 286-366) -/

/-- Python truthiness of an optional string: `None` and the empty string are
falsy. -/
def truthy : Option String → Bool
  | none => false
  | some s => s != ""

/-- Python `a or b` on optional strings: `a` when truthy, else `b`. -/
def pyOr (a b : Option String) : Option String :=
  if truthy a then a else b

/-- The delegation sources visible to `_authenticate` for one Bearer-key
request: URL query parameters, top-level JSON body fields, the embedded
message delegation (`_extract_delegation_from_messages` yields either both
fields or neither, gateway.py lines 484-551), and HTTP headers. -/
structure DelegationSources where
  queryUser : Option String
  queryApp : Option String
  bodyUser : Option String
  bodyApp : Option String
  msgDelegation : Option (String × String)
  headerUser : Option String
  headerApp : Option String
deriving DecidableEq

/-- Billing outcome of the delegation block of `_authenticate`. -/
inductive DelegationResult where
  | owner
  | delegated (userOid appId : String)
  | unauthorized401
deriving DecidableEq

/-- Embedding of the delegation block of `_authenticate` (gateway.py lines
286-366): the message content is scanned only when the body top-level
supplies neither field (line 306); each field then resolves through the
Python `or` chain query, body, message, header (lines 316-327); if either
resolved field is truthy both must be (else HTTP 401, lines 344-351),
and if neither is, the key owner is billed with no app (line 366). -/
def resolveDelegation (s : DelegationSources) : DelegationResult :=
  let msgFields :=
    if !truthy s.bodyUser && !truthy s.bodyApp then s.msgDelegation else none
  let dUser := pyOr s.queryUser (pyOr s.bodyUser
    (pyOr (msgFields.map Prod.fst) s.headerUser))
  let dApp := pyOr s.queryApp (pyOr s.bodyApp
    (pyOr (msgFields.map Prod.snd) s.headerApp))
  if truthy dUser || truthy dApp then
    if !truthy dUser then .unauthorized401
    else if !truthy dApp then .unauthorized401
    else .delegated (dUser.getD "") (dApp.getD "")
  else .owner

/-- Resolution rule as the claim words it: user and app each independently
take the first non-empty value in the strict order query parameter, body
field, message delegation, header; owner fallback and the both-or-401 rule
are as in the code. -/
def resolveDelegationSpec (s : DelegationSources) : DelegationResult :=
  let dUser := pyOr s.queryUser (pyOr s.bodyUser
    (pyOr (s.msgDelegation.map Prod.fst) s.headerUser))
  let dApp := pyOr s.queryApp (pyOr s.bodyApp
    (pyOr (s.msgDelegation.map Prod.snd) s.headerApp))
  if truthy dUser || truthy dApp then
    if !truthy dUser then .unauthorized401
    else if !truthy dApp then .unauthorized401
    else .delegated (dUser.getD "") (dApp.getD "")
  else .owner

/-- Mask the message-delegation source the way the code gates it: it is
visible only when the body top-level supplies neither field. -/
def maskMsgDelegation (s : DelegationSources) : DelegationSources :=
  { s with msgDelegation :=
      if !truthy s.bodyUser && !truthy s.bodyApp then s.msgDelegation
      else none }

/-- Concrete input separating the code from the claim: the body supplies
only the user, the message delegation supplies both fields. -/
def delegationGapInput : DelegationSources :=
  { queryUser := none, queryApp := none, bodyUser := some "U", bodyApp := none
    msgDelegation := some ("MU", "MA"), headerUser := none, headerApp := none }

/-! ## Cached API-key verification (app/services/api_key.py lines 49-119) -/

/-- An ApiKeys row as consumed by verification: id, stored hash, salt,
active flag, optional expiry instant (timestamps as integers). -/
structure KeyRecord where
  id : String
  hashedKey : String
  salt : String
  isActive : Bool
  expiresAt : Option Int
deriving DecidableEq

/-- `verify_api_key_fast` (api_key.py lines 49-57): compare
`sha256(plaintext + salt)` against the stored hash; the hash is an abstract
parameter of the embedding (constant-time comparison is equality here). -/
def verifyFast (hash : String → String) (plaintext : String)
    (k : KeyRecord) : Bool :=
  hash (plaintext ++ k.salt) == k.hashedKey

/-- `verify_against_db` (api_key.py lines 95-111): scan the active rows and
return the first key whose hash verifies. -/
def verifyAgainstDb (hash : String → String) (plaintext : String)
    (db : List KeyRecord) : Option KeyRecord :=
  (db.filter (fun k => k.isActive)).find? (verifyFast hash plaintext)

/-- `get_api_key_by_id` (api_key.py lines 114-119): lookup by id with no
activity filter. -/
def getKeyById (db : List KeyRecord) (keyId : String) : Option KeyRecord :=
  db.find? (fun k => k.id == keyId)

/-- Validity test applied to a cache hit in
`verify_and_get_api_key_with_cache` (api_key.py lines 82-84): active, and
unexpired (a null expiry never expires, `expires_at > now` otherwise). -/
def cachedKeyValid (now : Int) (k : KeyRecord) : Bool :=
  k.isActive && (match k.expiresAt with
    | none => true
    | some e => decide (now < e))

/-- Embedding of `verify_and_get_api_key_with_cache` (api_key.py lines
62-92): on a cache hit resolve the cached id and return the key when it is
valid; in every other case (cache miss, unresolvable id, inactive or
expired key) fall through to the full database scan. -/
def verifyWithCache (hash : String → String) (now : Int) (plaintext : String)
    (cache : Option String) (db : List KeyRecord) : Option KeyRecord :=
  match cache with
  | some keyId =>
      match getKeyById db keyId with
      | some k =>
          if cachedKeyValid now k then some k
          else verifyAgainstDb hash plaintext db
      | none => verifyAgainstDb hash plaintext db
  | none => verifyAgainstDb hash plaintext db

/-- A cache entry is stale (or purged) in the sense of the claim: absent, or
resolving to a missing, inactive, or expired key record. -/
def cacheEntryStale (now : Int) (db : List KeyRecord)
    (cache : Option String) : Bool :=
  match cache with
  | none => true
  | some keyId =>
      match getKeyById db keyId with
      | none => true
      | some k => !cachedKeyValid now k

/-! ## Streaming proxy (app/routers/chat.py lines 686-807) -/

/-- One iteration outcome of the backend chunk sequence consumed by
`_stream_processor`: a forwarded chunk carrying an optional model name and
optional usage counts (prompt, completion), a client cancellation
(`asyncio.CancelledError`) raised into the generator, or any other backend
exception raised while iterating. -/
inductive StreamEvent where
  | chunk (model : Option String) (usage : Option (Nat × Nat))
  | clientCancel
  | backendError
deriving DecidableEq

/-- Status written by `finalize_usage_log`; a log starts `pending` and stays
`pending` unless some finalize call runs. -/
inductive LogStatus where
  | completed
  | failed
  | cancelled
deriving DecidableEq

/-- One `finalize_usage_log` call as issued by the stream processor: the
status and the error code it writes. -/
structure FinalizeCall where
  status : LogStatus
  errorCode : Option String
deriving DecidableEq

/-- Items emitted on the SSE channel by `_stream_processor`: a forwarded
chunk, the kill-switch error event, or the `data: [DONE]` terminator. -/
inductive SseItem where
  | chunkData
  | errorEvent (message code : String)
  | doneMarker
deriving DecidableEq

/-- Ambient configuration of one streaming request: whether an
`api_key_id` is attached, the reservation's estimated cost, the Models
pricing used by `calculate_cost`, the requested model id
(`model_conf.id`), and the ApiKeys row (`usage_current_month`,
`budget_monthly`) as re-read by `get_api_key_by_id` at each kill-switch
check (`none` when the row has vanished). -/
structure StreamConfig where
  hasApiKey : Bool
  estimatedCost : ℚ
  models : List ModelPricing
  modelId : String
  keyRow : Option (ℚ × Option ℚ)

/-- Mutable loop state of `_stream_processor`: chunk counter, running token
counts, and the last model name reported by a chunk. -/
structure StreamState where
  chunkCount : Nat
  inputTokens : Nat
  outputTokens : Nat
  actualModel : Option String

/-- Initial loop state (chat.py lines 696-701). -/
def streamInit : StreamState :=
  { chunkCount := 0, inputTokens := 0, outputTokens := 0, actualModel := none }

/-- Per-chunk state update (chat.py lines 713-721): increment the counter,
record a truthy chunk model, and replace both token counts when the chunk
carries a usage field. -/
def StreamState.applyChunk (st : StreamState) (model : Option String)
    (usage : Option (Nat × Nat)) : StreamState :=
  { chunkCount := st.chunkCount + 1
    inputTokens := match usage with | some (i, _) => i | none => st.inputTokens
    outputTokens := match usage with | some (_, o) => o | none => st.outputTokens
    actualModel := match model with | some m => some m | none => st.actualModel }

/-- State after a list of chunks. -/
def advanceChunks (st : StreamState)
    (cs : List (Option String × Option (Nat × Nat))) : StreamState :=
  cs.foldl (fun s c => s.applyChunk c.1 c.2) st

/-- `calculate_cost(input, output, 0, 0, actual_model or model_conf.id)` as
called inside the stream processor (chat.py lines 725-728). -/
def currentCost (cfg : StreamConfig) (st : StreamState) : ℚ :=
  calculateCost cfg.models st.inputTokens st.outputTokens
    (st.actualModel.getD cfg.modelId)

/-- Kill-switch test (chat.py lines 732-743): re-read the key row; proceed
only when the row exists and `budget_monthly` is truthy (non-null and
nonzero), and trigger when
`usage_current_month + current_cost >= budget_monthly`. -/
def killSwitch (cfg : StreamConfig) (st : StreamState) : Bool :=
  match cfg.keyRow with
  | none => false
  | some (usage, budget) =>
      match budget with
      | none => false
      | some b => b != 0 && decide (usage + currentCost cfg st ≥ b)

/-- Whether the `finally` block releases the reservation
(chat.py lines 802-807). -/
def releaseRuns (cfg : StreamConfig) : Bool :=
  cfg.hasApiKey && decide (0 < cfg.estimatedCost)

/-- Observable outcome of one run of `_stream_processor`: the SSE items
emitted, the `finalize_usage_log` calls issued, and whether the reservation
release ran. -/
structure StreamResult where
  sse : List SseItem
  finalizes : List FinalizeCall
  releaseRan : Bool
deriving DecidableEq

/-- Embedding of `_stream_processor` (chat.py lines 686-807) over a list of
iteration outcomes.  Stream exhaustion emits `[DONE]` and finalizes
`completed`; a chunk is forwarded, the state updated, and every 50th chunk
runs the kill switch, whose trigger finalizes
`(cancelled, budget_exceeded_during_stream)` and emits the error event and
`[DONE]`; a client cancellation finalizes
`(cancelled, client_disconnected)`; any other backend exception propagates
out of the generator — no handler catches it and no finalize call runs.
The `finally` release runs on every path. -/
def runStream (cfg : StreamConfig) (st : StreamState) :
    List StreamEvent → StreamResult
  | [] =>
      { sse := [.doneMarker]
        finalizes := [{ status := .completed, errorCode := none }]
        releaseRan := releaseRuns cfg }
  | .chunk model usage :: rest =>
      let st1 := st.applyChunk model usage
      if cfg.hasApiKey && st1.chunkCount % 50 == 0 && killSwitch cfg st1 then
        { sse := [.chunkData,
            .errorEvent "Budget exceeded" "budget_kill_switch", .doneMarker]
          finalizes := [{ status := .cancelled
                          errorCode := some "budget_exceeded_during_stream" }]
          releaseRan := releaseRuns cfg }
      else
        let r := runStream cfg st1 rest
        { r with sse := .chunkData :: r.sse }
  | .clientCancel :: _ =>
      { sse := []
        finalizes := [{ status := .cancelled
                        errorCode := some "client_disconnected" }]
        releaseRan := releaseRuns cfg }
  | .backendError :: _ =>
      { sse := []
        finalizes := []
        releaseRan := releaseRuns cfg }

/-- A chunk event from its payload. -/
def chunkEvent (c : Option String × Option (Nat × Nat)) : StreamEvent :=
  .chunk c.1 c.2

/-- Configuration used for the concrete stream scenarios: an attached api
key with a positive reservation, an empty pricing table, and a key row with
usage 0 and the given monthly budget. -/
def streamCfg (budget : Option ℚ) : StreamConfig :=
  { hasApiKey := true, estimatedCost := 1, models := [], modelId := "m"
    keyRow := some (0, budget) }

/-! ## Rerank chat-completions fallback (app/routers/chat.py lines 552-661) -/

/-- One entry of a first-token `top_logprobs` array: the token text and its
log-probability. -/
structure TokenLogprob where
  token : String
  logprob : ℝ

/-- Python `str.strip()`: drop whitespace from both ends (modelled over the
character list; ASCII whitespace suffices for the tokens involved). -/
def pyStrip (s : String) : String :=
  String.mk
    (((s.data.dropWhile Char.isWhitespace).reverse.dropWhile
        Char.isWhitespace).reverse)

/-- Python `str.lower()` (ASCII case mapping suffices for the tokens
involved). -/
def pyLower (s : String) : String :=
  String.mk (s.data.map Char.toLower)

/-- Token normalisation of the fallback scorer (chat.py line 629):
`lp["token"].strip().lower()`. -/
def normTok (s : String) : String :=
  pyLower (pyStrip s)

/-- Membership test `tok in ("yes", "yes.")` (chat.py line 630). -/
def isYesTok (s : String) : Bool :=
  normTok s == "yes" || normTok s == "yes."

/-- Membership test `tok in ("no", "no.")` (chat.py line 632). -/
def isNoTok (s : String) : Bool :=
  normTok s == "no" || normTok s == "no."

/-- The scanning loop over `top_logprobs` (chat.py lines 626-633): record
the first yes-token and the first no-token log-probabilities. -/
def scanTopAux : Option ℝ × Option ℝ → List TokenLogprob → Option ℝ × Option ℝ
  | acc, [] => acc
  | (y, n), lp :: rest =>
      if isYesTok lp.token && y.isNone then scanTopAux (some lp.logprob, n) rest
      else if isNoTok lp.token && n.isNone then
        scanTopAux (y, some lp.logprob) rest
      else scanTopAux (y, n) rest

/-- Scan of a first-token `top_logprobs` array starting from no matches. -/
def scanTop (tops : List TokenLogprob) : Option ℝ × Option ℝ :=
  scanTopAux (none, none) tops

/-- Score from the scanned log-probabilities (chat.py lines 635-644):
both found gives `p_yes / (p_yes + p_no)` with `p = exp(logprob)`, only yes
gives `p_yes`, otherwise 0. -/
noncomputable def scoreFromScan : Option ℝ × Option ℝ → ℝ
  | (some y, some n) => Real.exp y / (Real.exp y + Real.exp n)
  | (some y, none) => Real.exp y
  | (none, _) => 0

/-- Text fallback test (chat.py lines 646-648):
`choice.message.content.strip().lower().startswith("yes")`. -/
def textStartsYes (text : String) : Bool :=
  "yes".data.isPrefixOf (normTok text).data

/-- Relevance score of one document before rounding (chat.py lines 617-648):
take the first entry of the logprobs content if any, otherwise fall back to
text matching. -/
noncomputable def docScore (content : List (List TokenLogprob))
    (text : String) : ℝ :=
  match content with
  | [] => if textStartsYes text then 1 else 0
  | tops :: _ => scoreFromScan (scanTop tops)

/-- Round half-to-even over the reals, the mode of Python `round`. -/
noncomputable def roundHalfEvenR (x : ℝ) : ℤ :=
  if x - ⌊x⌋ < 1/2 then ⌊x⌋
  else if 1/2 < x - ⌊x⌋ then ⌊x⌋ + 1
  else if ⌊x⌋ % 2 = 0 then ⌊x⌋ else ⌊x⌋ + 1

/-- `round(float(score), 6)` (chat.py line 650). -/
noncomputable def round6 (x : ℝ) : ℝ :=
  (roundHalfEvenR (x * 1000000) : ℝ) / 1000000

/-- One assembled rerank result `{index, relevance_score}`. -/
structure RerankScored where
  index : Nat
  relevanceScore : ℝ

/-- Score every document of the enumerated responses (chat.py lines
650-654); each response carries the logprobs content and the message
text. -/
noncomputable def scoreDocs
    (responses : List (List (List TokenLogprob) × String)) :
    List RerankScored :=
  responses.enum.map (fun p =>
    { index := p.1, relevanceScore := round6 (docScore p.2.1 p.2.2) })

/-- Stable descending insertion: an element goes before the first entry
whose score is at most its own, so equal scores keep their original order —
the unique stable sort, matching Python `sorted(..., reverse=True)`. -/
noncomputable def insertScoredDesc (x : RerankScored) :
    List RerankScored → List RerankScored
  | [] => [x]
  | y :: ys =>
      if y.relevanceScore ≤ x.relevanceScore then x :: y :: ys
      else y :: insertScoredDesc x ys

/-- Stable descending sort by relevance score (chat.py line 657). -/
noncomputable def sortScoredDesc : List RerankScored → List RerankScored
  | [] => []
  | x :: xs => insertScoredDesc x (sortScoredDesc xs)

/-- Assembly of `_rerank_via_chat_completions` (chat.py lines 552-661):
score each document, sort descending by relevance score, truncate to
`top_n` when given. -/
noncomputable def rerankViaChat
    (responses : List (List (List TokenLogprob) × String))
    (topN : Option Nat) : List RerankScored :=
  match topN with
  | none => sortScoredDesc (scoreDocs responses)
  | some n => (sortScoredDesc (scoreDocs responses)).take n

/-- The S6 scenario: three documents whose chat responses carry first-token
top-logprobs yes/no of (-0.1, -2.3), (-2.0, -0.2) and (-0.5, -0.5). -/
noncomputable def s6responses : List (List (List TokenLogprob) × String) :=
  [([[{ token := "yes", logprob := -(1/10) },
      { token := "no", logprob := -(23/10) }]], "yes"),
   ([[{ token := "yes", logprob := -2 },
      { token := "no", logprob := -(1/5) }]], "no"),
   ([[{ token := "yes", logprob := -(1/2) },
      { token := "no", logprob := -(1/2) }]], "yes")]

/-! ## Theorems -/

/-- Helper: a foldl over budget operations preserves the budget bound when
every operation carries a nonnegative cost. -/
theorem budget_foldl_le (d L p : ℚ) (ops : List BudgetOp)
    (hp : d + p ≤ L) (h : ∀ op ∈ ops, 0 ≤ op.cost) :
    d + ops.foldl (budgetStep d L) p ≤ L := by
  induction ops generalizing p with
  | nil => simpa using hp
  | cons op rest ih =>
      have hop : 0 ≤ op.cost := h op (List.mem_cons_self op rest)
      have hrest : ∀ o ∈ rest, 0 ≤ o.cost := fun o ho => h o (List.mem_cons_of_mem _ ho)
      cases op with
      | reserve c =>
          simp only [List.foldl_cons, budgetStep, reserveScript]
          by_cases hc : d + p + c > L
          · rw [if_pos hc]
            exact ih p hp hrest
          · rw [if_neg hc]
            exact ih (p + c) (by linarith [not_lt.mp hc]) hrest
      | release c =>
          simp only [List.foldl_cons, budgetStep, releaseStep]
          have hcost : 0 ≤ c := hop
          exact ih (p - c) (by linarith) hrest

/-- C1: for a key with a non-null monthly limit, across every interleaving of
reserve operations (each run as the single atomic fast-store script) and
release operations, `db_usage + pending ≤ budget_monthly` holds at every
point, given that it holds initially and all amounts are nonnegative;
moreover the script changes `pending` only by adding `estimated_cost` and
only when `db_usage + pending + estimated_cost ≤ budget_monthly`, and release
only subtracts the reserved amount from `pending`. -/
theorem C1_reservation_invariant (dbUsage budgetLimit : ℚ) (ops : List BudgetOp)
    (hinit : dbUsage ≤ budgetLimit)
    (hcost : ∀ op ∈ ops, 0 ≤ op.cost) :
    (∀ pre, pre <+: ops →
        dbUsage + pendingAfter dbUsage budgetLimit pre ≤ budgetLimit)
    ∧ (∀ c p, (reserveScript dbUsage budgetLimit c p).1 ≠ p →
        (reserveScript dbUsage budgetLimit c p).1 = p + c
          ∧ dbUsage + p + c ≤ budgetLimit)
    ∧ (∀ c p, releaseStep c p = p - c) := by
  refine ⟨?_, ?_, fun c p => rfl⟩
  · intro pre hpre
    have hsub : ∀ op ∈ pre, 0 ≤ op.cost := fun op hop =>
      hcost op (hpre.sublist.mem hop)
    exact budget_foldl_le dbUsage budgetLimit 0 pre (by simpa using hinit) hsub
  · intro c p hne
    unfold reserveScript at hne ⊢
    by_cases hc : dbUsage + p + c > budgetLimit
    · rw [if_pos hc] at hne
      exact absurd rfl hne
    · rw [if_neg hc]
      exact ⟨rfl, by linarith [not_lt.mp hc]⟩

/-- Witness for C1 at a concrete schedule: limit 100, db usage 0, a reserve
of 60 followed by its release. -/
theorem C1_reservation_invariant_witness :
    (0 : ℚ) + pendingAfter 0 100 [BudgetOp.reserve 60] ≤ 100 :=
  (C1_reservation_invariant 0 100 [BudgetOp.reserve 60, BudgetOp.release 60]
      (by norm_num)
      (by
        intro op hop
        fin_cases hop <;> norm_num [BudgetOp.cost])).1
    [BudgetOp.reserve 60] ⟨[BudgetOp.release 60], rfl⟩

/-- C2: with `budget_monthly = 100`, `db_usage = 0` and two reservation calls
of estimated cost 60 each, in either serialization of the two atomic scripts
the first call succeeds and records 60 in pending, and the second fails and
is surfaced as HTTP 403 with code `budget_exceeded` (both serializations are
the same because the two calls carry equal costs; both orders are spelled
out). -/
theorem C2_budget_race :
    checkAndReserve 0 100 60 0 = (60, ReserveOutcome.ok 60)
    ∧ checkAndReserve 0 100 60 (checkAndReserve 0 100 60 0).1
        = (60, ReserveOutcome.httpError 403 "budget_exceeded")
    ∧ checkAndReserve 0 100 60 (checkAndReserve 0 100 60 0).1
        = checkAndReserve 0 100 60 (checkAndReserve 0 100 60 0).1 := by
  refine ⟨?_, ?_, rfl⟩ <;>
    norm_num [checkAndReserve, reserveScript]

/-- C6 counterexample: for the query "hello" with no documents,
`total_chars = 5`; the code attributes `5 // 4 = 1` token while the claimed
`ceil(5 / 4)` is 2. -/
theorem C6_counterexample :
    rerankEstimatedTokens "hello" [] = 1
    ∧ rerankTokensSpecCeil "hello" [] = 2
    ∧ rerankEstimatedTokens "hello" [] ≠ rerankTokensSpecCeil "hello" [] := by
  refine ⟨?_, ?_, ?_⟩ <;> decide

/-- C6 amended: the input tokens attributed for a rerank request equal
`floor(total_chars / 4)` — characterized order-theoretically: four times the
attributed count is at most `total_chars`, which is less than four times the
successor. -/
theorem C6_floor_tokens (query : String) (documents : List RerankDoc) :
    4 * rerankEstimatedTokens query documents ≤ rerankTotalChars query documents
    ∧ rerankTotalChars query documents
        < 4 * (rerankEstimatedTokens query documents + 1) := by
  unfold rerankEstimatedTokens
  omega

/-- C10: `calculate_cost` is total and never raises; on a model id with no
row in the Models table it returns 0, and on a known model it returns
`input_tokens/1e6 * input_cost + output_tokens/1e6 * output_cost` quantized
to four decimal places. -/
theorem C10_calculate_cost (models : List ModelPricing)
    (inputTokens outputTokens : Nat) (modelId : String) :
    (lookupModel models modelId = none →
      calculateCost models inputTokens outputTokens modelId = 0)
    ∧ (∀ m, lookupModel models modelId = some m →
        calculateCost models inputTokens outputTokens modelId
          = quantize4 ((inputTokens : ℚ) * m.inputCost / 1000000
              + (outputTokens : ℚ) * m.outputCost / 1000000)) := by
  constructor
  · intro h
    unfold calculateCost
    rw [h]
  · intro m h
    unfold calculateCost
    rw [h]
    ring_nf

/-- Witness for C10: the empty table bills zero, and the S1 pricing
(input 1000, output 2000 per million) bills 3 input and 7 output tokens at
0.017. -/
theorem C10_calculate_cost_witness :
    (lookupModel [] "m" = none ∧ calculateCost [] 5 7 "m" = 0)
    ∧ (lookupModel [ModelPricing.mk "m" 1000 2000] "m"
          = some (ModelPricing.mk "m" 1000 2000)
        ∧ calculateCost [ModelPricing.mk "m" 1000 2000] 3 7 "m"
          = quantize4 ((3 : ℚ) * 1000 / 1000000 + (7 : ℚ) * 2000 / 1000000)) :=
  ⟨⟨rfl, (C10_calculate_cost [] 5 7 "m").1 rfl⟩,
   ⟨rfl, (C10_calculate_cost [ModelPricing.mk "m" 1000 2000] 3 7 "m").2
      (ModelPricing.mk "m" 1000 2000) rfl⟩⟩

/-- Helper: cleaning never turns a non-null value into null (the cleaned
value keeps its constructor). -/
theorem Json.isNull_clean (j : Json) : j.clean.isNull = j.isNull := by
  cases j <;> rfl

mutual

/-- Helper: the cleaner is idempotent on values. -/
theorem Json.clean_idem : ∀ j : Json, j.clean.clean = j.clean
  | .null => rfl
  | .boolean _ => rfl
  | .num _ => rfl
  | .str _ => rfl
  | .arr items => congrArg Json.arr (Json.cleanList_idem items)
  | .obj fields => congrArg Json.obj (Json.cleanFields_idem fields)

/-- Helper: the cleaner is idempotent on lists. -/
theorem Json.cleanList_idem : ∀ l : List Json,
    Json.cleanList (Json.cleanList l) = Json.cleanList l
  | [] => rfl
  | x :: xs => by
      simp only [Json.cleanList]
      exact congrArg₂ List.cons (Json.clean_idem x) (Json.cleanList_idem xs)

/-- Helper: the cleaner is idempotent on dict fields. -/
theorem Json.cleanFields_idem : ∀ l : List (String × Json),
    Json.cleanFields (Json.cleanFields l) = Json.cleanFields l
  | [] => rfl
  | (k, v) :: rest => by
      by_cases h : (v.isNull || k.startsWith "_") = true
      · simp only [Json.cleanFields, if_pos h]
        exact Json.cleanFields_idem rest
      · simp only [Json.cleanFields, if_neg h]
        have hv : (v.clean.isNull || k.startsWith "_") = false := by
          rw [Json.isNull_clean]
          exact Bool.not_eq_true _ ▸ (by simpa using h)
        simp only [Json.cleanFields, hv, Bool.false_eq_true, if_false]
        exact congrArg₂ List.cons
          (congrArg (Prod.mk k) (Json.clean_idem v))
          (Json.cleanFields_idem rest)

end

/-- C8: the response cleaner is idempotent: for every JSON value,
`clean (clean x) = clean x`, where `clean` removes null-valued and
underscore-prefixed keys from every dictionary and recurses into lists. -/
theorem C8_cleaner_idempotent (x : Json) : x.clean.clean = x.clean :=
  Json.clean_idem x

/-- C5 counterexample: when the body top-level supplies only `x_user_oid`
and a user message embeds a delegation JSON carrying both fields, the
claimed per-field resolution yields user "U" (body) and app "MA" (message),
but the code never consults the message source (it is gated on the body
supplying neither field) and rejects the request with 401. -/
theorem C5_counterexample :
    resolveDelegation delegationGapInput = DelegationResult.unauthorized401
    ∧ resolveDelegationSpec delegationGapInput
        = DelegationResult.delegated "U" "MA"
    ∧ resolveDelegation delegationGapInput
        ≠ resolveDelegationSpec delegationGapInput := by
  refine ⟨?_, ?_, ?_⟩ <;> decide

/-- C5 amended: the code realises exactly the claimed independent per-field
first-non-empty resolution (query, body, message, header; owner fallback
when neither field is supplied; 401 unless both resolve) after masking the
message-delegation source, which participates only when the body top-level
supplies neither field. -/
theorem C5_amended_resolution (s : DelegationSources) :
    resolveDelegation s = resolveDelegationSpec (maskMsgDelegation s) := by
  rfl

/-- C9: a stale or purged cache entry (absent, or resolving to a missing,
inactive, or expired key) is never rejected on the cached data: verification
falls through to the full database scan, so the result — and in particular
whether the plaintext verifies at all — coincides with the uncached scan. -/
theorem C9_stale_cache_refinement (hash : String → String) (now : Int)
    (plaintext : String) (cache : Option String) (db : List KeyRecord)
    (h : cacheEntryStale now db cache = true) :
    verifyWithCache hash now plaintext cache db
      = verifyAgainstDb hash plaintext db
    ∧ (verifyWithCache hash now plaintext cache db).isSome
      = (verifyAgainstDb hash plaintext db).isSome := by
  have hmain : verifyWithCache hash now plaintext cache db
      = verifyAgainstDb hash plaintext db := by
    cases cache with
    | none => rfl
    | some keyId =>
        cases hk : getKeyById db keyId with
        | none => simp [verifyWithCache, hk]
        | some k =>
            have hv : cachedKeyValid now k = false := by
              simpa [cacheEntryStale, hk] using h
            simp [verifyWithCache, hk, hv]
  exact ⟨hmain, by rw [hmain]⟩

/-- Witness for C9: a cache entry pointing at an id absent from the table
falls through to the scan, which verifies the key under the identity hash. -/
theorem C9_stale_cache_refinement_witness :
    cacheEntryStale 0 [KeyRecord.mk "id1" "ksalt" "salt" true none]
        (some "gone") = true
    ∧ verifyWithCache (fun s => s) 0 "k" (some "gone")
        [KeyRecord.mk "id1" "ksalt" "salt" true none]
      = verifyAgainstDb (fun s => s) "k"
        [KeyRecord.mk "id1" "ksalt" "salt" true none] :=
  ⟨by decide,
   (C9_stale_cache_refinement (fun s => s) 0 "k" (some "gone")
      [KeyRecord.mk "id1" "ksalt" "salt" true none] (by decide)).1⟩

/-- Helper: the chunk counter after a list of chunks. -/
theorem advanceChunks_chunkCount (st : StreamState)
    (cs : List (Option String × Option (Nat × Nat))) :
    (advanceChunks st cs).chunkCount = st.chunkCount + cs.length := by
  induction cs generalizing st with
  | nil => simp [advanceChunks]
  | cons c cs ih =>
      have hstep : advanceChunks st (c :: cs)
          = advanceChunks (st.applyChunk c.1 c.2) cs := rfl
      rw [hstep, ih]
      simp [StreamState.applyChunk]
      omega

/-- Helper: appending one chunk to the advance. -/
theorem advanceChunks_append_singleton (st : StreamState)
    (cs : List (Option String × Option (Nat × Nat)))
    (c : Option String × Option (Nat × Nat)) :
    advanceChunks st (cs ++ [c]) = (advanceChunks st cs).applyChunk c.1 c.2 := by
  simp [advanceChunks, List.foldl_append]

/-- Helper: while no checkpoint fires on any nonempty prefix, the processor
forwards each chunk and continues with the advanced state. -/
theorem runStream_forward_chunks (cfg : StreamConfig) (st : StreamState)
    (cs : List (Option String × Option (Nat × Nat)))
    (rest : List StreamEvent)
    (h : ∀ pre, pre ≠ [] → pre <+: cs →
      (cfg.hasApiKey && (advanceChunks st pre).chunkCount % 50 == 0
        && killSwitch cfg (advanceChunks st pre)) = false) :
    runStream cfg st (cs.map chunkEvent ++ rest)
      = { runStream cfg (advanceChunks st cs) rest with
          sse := List.replicate cs.length SseItem.chunkData
            ++ (runStream cfg (advanceChunks st cs) rest).sse } := by
  induction cs generalizing st with
  | nil => simp [advanceChunks]
  | cons c cs ih =>
      obtain ⟨m, u⟩ := c
      have h1 : (cfg.hasApiKey && (st.applyChunk m u).chunkCount % 50 == 0
          && killSwitch cfg (st.applyChunk m u)) = false := by
        have := h [(m, u)] (by simp) ⟨cs, rfl⟩
        simpa [advanceChunks] using this
      have hpre : ∀ pre, pre ≠ [] → pre <+: cs →
          (cfg.hasApiKey
            && (advanceChunks (st.applyChunk m u) pre).chunkCount % 50 == 0
            && killSwitch cfg (advanceChunks (st.applyChunk m u) pre))
            = false := by
        intro pre hne hp
        obtain ⟨t, ht⟩ := hp
        have := h ((m, u) :: pre) (by simp)
          ⟨t, by rw [List.cons_append, ht]⟩
        simpa [advanceChunks] using this
      have hrec := ih (st.applyChunk m u) hpre
      have hadv : advanceChunks st ((m, u) :: cs)
          = advanceChunks (st.applyChunk m u) cs := rfl
      simp only [List.map_cons, List.cons_append, chunkEvent, runStream, h1,
        Bool.false_eq_true, if_false]
      simp only [List.append_eq]
      rw [hrec, hadv]
      simp [List.replicate_succ]

/-- C3: the code is at odds with the claim.  On the natural-completion,
kill-switch and client-cancellation exits the streaming processor finalizes
its usage log exactly once; but a backend error raised while iterating is
caught by no handler, so that exit path issues no finalize call at all and
leaves the log `pending` (only the reservation release in the `finally`
block runs). -/
theorem C3_backend_error_leaves_pending :
    (runStream (streamCfg (some 100)) streamInit
        [StreamEvent.chunk none none, StreamEvent.backendError]).finalizes = []
    ∧ (runStream (streamCfg (some 100)) streamInit
        [StreamEvent.chunk none none, StreamEvent.backendError]).releaseRan
        = true
    ∧ (runStream (streamCfg (some 100)) streamInit
        [StreamEvent.chunk none none]).finalizes
      = [{ status := LogStatus.completed, errorCode := none }]
    ∧ (runStream (streamCfg (some 100)) streamInit
        [StreamEvent.chunk none none, StreamEvent.clientCancel]).finalizes
      = [{ status := LogStatus.cancelled
           errorCode := some "client_disconnected" }] := by
  refine ⟨?_, ?_, ?_, ?_⟩ <;> decide

/-- C4 counterexample: a key whose monthly budget is the non-null limit 0
satisfies the claim's trigger condition `projected >= budget_monthly` at
chunk 50 (projected = 0), yet the code's guard
`if api_key.budget_monthly:` treats the zero budget as falsy: the stream
runs to completion with no error event and the log finalizes `completed`. -/
theorem C4_counterexample :
    (streamCfg (some 0)).keyRow = some (0, some 0)
    ∧ (0 : ℚ) + currentCost (streamCfg (some 0))
        (advanceChunks streamInit (List.replicate 50 (none, none))) ≥ 0
    ∧ (runStream (streamCfg (some 0)) streamInit
        (List.replicate 50 (StreamEvent.chunk none none))).finalizes
      = [{ status := LogStatus.completed, errorCode := none }]
    ∧ SseItem.errorEvent "Budget exceeded" "budget_kill_switch"
        ∉ (runStream (streamCfg (some 0)) streamInit
            (List.replicate 50 (StreamEvent.chunk none none))).sse := by
  refine ⟨rfl, ?_, ?_, ?_⟩
  · simp [currentCost, calculateCost, lookupModel, streamCfg]
  · decide
  · decide

/-- C4 amended: restricted to keys whose monthly budget is non-null and
nonzero (the code's truthiness guard).  At every kill-switch check the
processor recomputes `projected = usage_current_month + cost so far` and
compares it with the budget; and whenever the first 50 events are chunks
whose accumulated cost drives `projected >= budget_monthly` at the chunk-50
check, the stream terminates with the SSE error event followed by
`data: [DONE]` and the log finalizes once with status `cancelled` and error
code `budget_exceeded_during_stream`. -/
theorem C4_kill_switch (usage b : ℚ) (hb : b ≠ 0) (est : ℚ)
    (models : List ModelPricing) (mid : String)
    (cs : List (Option String × Option (Nat × Nat))) (hlen : cs.length = 50)
    (rest : List StreamEvent)
    (htrig : usage + currentCost
        { hasApiKey := true, estimatedCost := est, models := models
          modelId := mid, keyRow := some (usage, some b) }
        (advanceChunks streamInit cs) ≥ b) :
    (∀ st : StreamState,
      killSwitch
        { hasApiKey := true, estimatedCost := est, models := models
          modelId := mid, keyRow := some (usage, some b) } st
      = decide (usage + currentCost
          { hasApiKey := true, estimatedCost := est, models := models
            modelId := mid, keyRow := some (usage, some b) } st ≥ b))
    ∧ runStream
        { hasApiKey := true, estimatedCost := est, models := models
          modelId := mid, keyRow := some (usage, some b) }
        streamInit (cs.map chunkEvent ++ rest)
      = { sse := List.replicate 50 SseItem.chunkData
            ++ [SseItem.errorEvent "Budget exceeded" "budget_kill_switch",
                SseItem.doneMarker]
          finalizes := [{ status := LogStatus.cancelled
                          errorCode := some "budget_exceeded_during_stream" }]
          releaseRan := releaseRuns
            { hasApiKey := true, estimatedCost := est, models := models
              modelId := mid, keyRow := some (usage, some b) } } := by
  set cfg : StreamConfig :=
    { hasApiKey := true, estimatedCost := est, models := models
      modelId := mid, keyRow := some (usage, some b) } with hcfg
  have hks : ∀ st : StreamState,
      killSwitch cfg st = decide (usage + currentCost cfg st ≥ b) := by
    intro st
    simp [killSwitch, hcfg, bne_iff_ne, hb]
  refine ⟨hks, ?_⟩
  have hne : cs ≠ [] := by
    intro hcs
    rw [hcs] at hlen
    simp at hlen
  obtain ⟨front, lastc, hsplit, hfront⟩ :
      ∃ front lastc, cs = front ++ [lastc] ∧ front.length = 49 := by
    refine ⟨cs.dropLast, cs.getLast hne, ?_, ?_⟩
    · exact (List.dropLast_append_getLast hne).symm
    · rw [List.length_dropLast, hlen]
  have hforward := runStream_forward_chunks cfg streamInit front
    (chunkEvent lastc :: rest) ?_
  · have hst49 : (advanceChunks streamInit front).chunkCount = 49 := by
      rw [advanceChunks_chunkCount, hfront]
      rfl
    set st49 := advanceChunks streamInit front with hst49def
    obtain ⟨m, u⟩ := lastc
    have hst50 : st49.applyChunk m u = advanceChunks streamInit cs := by
      rw [hsplit, advanceChunks_append_singleton]
    have hcount50 : (st49.applyChunk m u).chunkCount = 50 := by
      rw [hst50, advanceChunks_chunkCount, hlen]
      rfl
    have hguard : (cfg.hasApiKey && (st49.applyChunk m u).chunkCount % 50 == 0
        && killSwitch cfg (st49.applyChunk m u)) = true := by
      rw [hcount50, hks, hst50]
      simp [hcfg, htrig]
    have hrun50 : runStream cfg st49 (chunkEvent (m, u) :: rest)
        = { sse := [SseItem.chunkData,
              SseItem.errorEvent "Budget exceeded" "budget_kill_switch",
              SseItem.doneMarker]
            finalizes := [{ status := LogStatus.cancelled
                            errorCode := some "budget_exceeded_during_stream" }]
            releaseRan := releaseRuns cfg } := by
      simp only [chunkEvent, runStream, hguard, if_true]
    rw [hsplit] at htrig ⊢
    calc runStream cfg streamInit
          ((front ++ [(m, u)]).map chunkEvent ++ rest)
        = runStream cfg streamInit
            (front.map chunkEvent ++ (chunkEvent (m, u) :: rest)) := by
          simp
      _ = { runStream cfg st49 (chunkEvent (m, u) :: rest) with
            sse := List.replicate front.length SseItem.chunkData
              ++ (runStream cfg st49 (chunkEvent (m, u) :: rest)).sse } := by
          rw [hforward]
      _ = { sse := List.replicate 50 SseItem.chunkData
              ++ [SseItem.errorEvent "Budget exceeded" "budget_kill_switch",
                  SseItem.doneMarker]
            finalizes := [{ status := LogStatus.cancelled
                            errorCode := some "budget_exceeded_during_stream" }]
            releaseRan := releaseRuns cfg } := by
          rw [hrun50, hfront]
          have h50 : List.replicate 50 SseItem.chunkData
              = List.replicate 49 SseItem.chunkData ++ [SseItem.chunkData] := by
            have : (50 : Nat) = 49 + 1 := by norm_num
            rw [this, List.replicate_succ']
          rw [h50]
          simp
  · intro pre hpre1 hpre2
    have hlenpre : pre.length ≤ 49 := by
      have := hpre2.length_le
      omega
    have hposlen : 1 ≤ pre.length := by
      cases pre with
      | nil => exact absurd rfl hpre1
      | cons a l => simp
    have hcount : (advanceChunks streamInit pre).chunkCount % 50 ≠ 0 := by
      rw [advanceChunks_chunkCount]
      show (0 + pre.length) % 50 ≠ 0
      omega
    simp [hcount]

/-- Witness for C4 at a concrete stream: usage 1, budget 1, an empty pricing
table (cost 0) and 50 plain chunks, so the chunk-50 check sees
`projected = 1 >= 1` and kills the stream. -/
theorem C4_kill_switch_witness :
    runStream
      { hasApiKey := true, estimatedCost := 0, models := [], modelId := "m"
        keyRow := some (1, some 1) }
      streamInit
      ((List.replicate 50 ((none : Option String),
          (none : Option (Nat × Nat)))).map chunkEvent ++ [])
    = { sse := List.replicate 50 SseItem.chunkData
          ++ [SseItem.errorEvent "Budget exceeded" "budget_kill_switch",
              SseItem.doneMarker]
        finalizes := [{ status := LogStatus.cancelled
                        errorCode := some "budget_exceeded_during_stream" }]
        releaseRan := releaseRuns
          { hasApiKey := true, estimatedCost := 0, models := []
            modelId := "m", keyRow := some (1, some 1) } } :=
  (C4_kill_switch 1 1 (by norm_num) 0 [] "m"
    (List.replicate 50 (none, none)) (by simp) []
    (by simp [currentCost, calculateCost, lookupModel])).2

/-- Helper: half-even rounding moves a real by at most one half. -/
theorem roundHalfEvenR_near (x : ℝ) : |(roundHalfEvenR x : ℝ) - x| ≤ 1/2 := by
  unfold roundHalfEvenR
  have h1 : (⌊x⌋ : ℝ) ≤ x := Int.floor_le x
  have h2 : x < ⌊x⌋ + 1 := Int.lt_floor_add_one x
  by_cases ha : x - ⌊x⌋ < 1/2
  · rw [if_pos ha, abs_le]
    constructor <;> linarith
  · rw [if_neg ha]
    by_cases hb : 1/2 < x - ⌊x⌋
    · rw [if_pos hb]
      push_cast
      rw [abs_le]
      constructor <;> linarith
    · rw [if_neg hb]
      by_cases hc : ⌊x⌋ % 2 = 0
      · rw [if_pos hc, abs_le]
        constructor <;> linarith
      · rw [if_neg hc]
        push_cast
        rw [abs_le]
        constructor <;> linarith

/-- Helper: rounding to six decimal places moves a score by at most
`1/2000000`. -/
theorem round6_near (x : ℝ) : |round6 x - x| ≤ 1/2000000 := by
  have h := roundHalfEvenR_near (x * 1000000)
  rw [abs_le] at h ⊢
  unfold round6
  constructor <;> linarith [h.1, h.2]

/-- Helper: one half is a fixed point of six-decimal rounding. -/
theorem round6_half : round6 (1/2 : ℝ) = 1/2 := by
  have hx : (1/2 : ℝ) * 1000000 = ((500000 : ℤ) : ℝ) := by norm_num
  unfold round6 roundHalfEvenR
  rw [hx, Int.floor_intCast]
  norm_num

/-- Helper: a first-token logprob list with a yes then a no entry scans to
both and scores `p_yes / (p_yes + p_no)`. -/
theorem docScore_yes_no (a b : ℝ) (t : String) :
    docScore [[⟨"yes", a⟩, ⟨"no", b⟩]] t
      = Real.exp a / (Real.exp a + Real.exp b) := by
  have h1 : isYesTok "yes" = true := by decide
  have h2 : isNoTok "no" = true := by decide
  simp [docScore, scanTop, scanTopAux, h1, h2, scoreFromScan]

/-- Helper: the S6 first document scores above 3/5. -/
theorem s6_first_score_gt :
    3/5 < Real.exp (-(1/10)) / (Real.exp (-(1/10)) + Real.exp (-(23/10))) := by
  have hy : (0:ℝ) < Real.exp (-(1/10)) := Real.exp_pos _
  have hsplit : Real.exp (-(23/10)) = Real.exp (-(1/10)) * Real.exp (-(11/5)) := by
    rw [← Real.exp_add]
    norm_num
  have hbound : Real.exp (-(11/5)) < 5/16 := by
    have h22 : (16/5 : ℝ) < Real.exp (11/5) := by
      have h := Real.add_one_lt_exp (show (11/5 : ℝ) ≠ 0 by norm_num)
      linarith
    rw [Real.exp_neg, show (5/16 : ℝ) = ((16:ℝ)/5)⁻¹ by norm_num]
    exact inv_strictAnti₀ (by norm_num) h22
  have hpos : (0:ℝ) < Real.exp (-(1/10)) + Real.exp (-(23/10)) := by positivity
  rw [lt_div_iff₀ hpos, hsplit]
  nlinarith [mul_lt_mul_of_pos_left hbound hy]

/-- Helper: the S6 second document scores below 2/5. -/
theorem s6_second_score_lt :
    Real.exp (-2) / (Real.exp (-2) + Real.exp (-(1/5))) < 2/5 := by
  have hz : (0:ℝ) < Real.exp (-(1/5)) := Real.exp_pos _
  have hsplit : Real.exp (-2 : ℝ) = Real.exp (-(1/5)) * Real.exp (-(9/5)) := by
    rw [← Real.exp_add]
    norm_num
  have hbound : Real.exp (-(9/5)) < 5/14 := by
    have h18 : (14/5 : ℝ) < Real.exp (9/5) := by
      have h := Real.add_one_lt_exp (show (9/5 : ℝ) ≠ 0 by norm_num)
      linarith
    rw [Real.exp_neg, show (5/14 : ℝ) = ((14:ℝ)/5)⁻¹ by norm_num]
    exact inv_strictAnti₀ (by norm_num) h18
  have hpos : (0:ℝ) < Real.exp (-2) + Real.exp (-(1/5)) := by positivity
  rw [div_lt_iff₀ hpos, hsplit]
  nlinarith [mul_lt_mul_of_pos_left hbound hz]

/-- Helper: equal yes/no logprobs score exactly one half. -/
theorem exp_ratio_self (x : ℝ) :
    Real.exp x / (Real.exp x + Real.exp x) = 1/2 := by
  have h : (0:ℝ) < Real.exp x := Real.exp_pos _
  field_simp
  ring

/-- Helper: the scored S6 documents, with the third score rewritten to its
exact value. -/
theorem s6_scoreDocs_eval :
    scoreDocs s6responses
      = [⟨0, round6 (Real.exp (-(1/10))
            / (Real.exp (-(1/10)) + Real.exp (-(23/10))))⟩,
         ⟨1, round6 (Real.exp (-2) / (Real.exp (-2) + Real.exp (-(1/5))))⟩,
         ⟨2, (1/2 : ℝ)⟩] := by
  show List.map _ (List.enum s6responses) = _
  rw [show List.enum s6responses
      = [(0, s6responses.get ⟨0, by simp [s6responses]⟩),
         (1, s6responses.get ⟨1, by simp [s6responses]⟩),
         (2, s6responses.get ⟨2, by simp [s6responses]⟩)] from rfl]
  simp only [List.map, s6responses, List.get]
  rw [docScore_yes_no, docScore_yes_no, docScore_yes_no, exp_ratio_self,
    round6_half]

/-- Helper: the S6 sort order is document 1, document 3, document 2, and the
top-2 truncation keeps documents 1 and 3. -/
theorem s6_sort_eval :
    (sortScoredDesc (scoreDocs s6responses)).map RerankScored.index
      = [0, 2, 1]
    ∧ ((sortScoredDesc (scoreDocs s6responses)).take 2).map RerankScored.index
      = [0, 2] := by
  have ha2 : ((1:ℝ)/2) ≤ round6 (Real.exp (-(1/10))
      / (Real.exp (-(1/10)) + Real.exp (-(23/10)))) := by
    have hn := round6_near (Real.exp (-(1/10))
      / (Real.exp (-(1/10)) + Real.exp (-(23/10))))
    rw [abs_le] at hn
    have := s6_first_score_gt
    linarith [hn.1, hn.2]
  have hb2 : ¬ ((1:ℝ)/2
      ≤ round6 (Real.exp (-2) / (Real.exp (-2) + Real.exp (-(1/5))))) := by
    have hn := round6_near (Real.exp (-2) / (Real.exp (-2) + Real.exp (-(1/5))))
    rw [abs_le] at hn
    have := s6_second_score_lt
    push_neg
    linarith [hn.1, hn.2]
  have i2 : insertScoredDesc ⟨2, (1/2 : ℝ)⟩ [] = [⟨2, (1/2 : ℝ)⟩] := by
    simp only [insertScoredDesc]
  have i1 : insertScoredDesc
        ⟨1, round6 (Real.exp (-2) / (Real.exp (-2) + Real.exp (-(1/5))))⟩
        [⟨2, (1/2 : ℝ)⟩]
      = [⟨2, (1/2 : ℝ)⟩,
         ⟨1, round6 (Real.exp (-2) / (Real.exp (-2) + Real.exp (-(1/5))))⟩] := by
    simp only [insertScoredDesc]
    rw [if_neg hb2]
  have i0 : insertScoredDesc
        ⟨0, round6 (Real.exp (-(1/10))
            / (Real.exp (-(1/10)) + Real.exp (-(23/10))))⟩
        [⟨2, (1/2 : ℝ)⟩,
         ⟨1, round6 (Real.exp (-2) / (Real.exp (-2) + Real.exp (-(1/5))))⟩]
      = [⟨0, round6 (Real.exp (-(1/10))
            / (Real.exp (-(1/10)) + Real.exp (-(23/10))))⟩,
         ⟨2, (1/2 : ℝ)⟩,
         ⟨1, round6 (Real.exp (-2) / (Real.exp (-2) + Real.exp (-(1/5))))⟩] := by
    simp only [insertScoredDesc]
    rw [if_pos ha2]
  have hsort : sortScoredDesc (scoreDocs s6responses)
      = [⟨0, round6 (Real.exp (-(1/10))
            / (Real.exp (-(1/10)) + Real.exp (-(23/10))))⟩,
         ⟨2, (1/2 : ℝ)⟩,
         ⟨1, round6 (Real.exp (-2) / (Real.exp (-2) + Real.exp (-(1/5))))⟩] := by
    rw [s6_scoreDocs_eval]
    simp only [sortScoredDesc]
    rw [i2, i1, i0]
  rw [hsort]
  exact ⟨rfl, rfl⟩

/-- C7: in the tier-3 chat-completions rerank fallback, the score is
`p_yes/(p_yes+p_no)` with `p = exp(logprob)` when both tokens are found,
`p_yes` when only yes is found, 0 when yes is missing; without logprobs the
score is 1 exactly when the response text starts with yes; matching is
case-insensitive, strips whitespace and ignores a trailing period; and on
the S6 logprobs the descending sort orders the documents 1, 3, 2, with
`top_n = 2` keeping documents 1 and 3. -/
theorem C7_rerank_chat_fallback :
    (∀ y n : ℝ, scoreFromScan (some y, some n)
        = Real.exp y / (Real.exp y + Real.exp n))
    ∧ (∀ y : ℝ, scoreFromScan (some y, none) = Real.exp y)
    ∧ (∀ o : Option ℝ, scoreFromScan (none, o) = 0)
    ∧ (∀ text : String,
        docScore [] text = if textStartsYes text then 1 else 0)
    ∧ isYesTok "Yes." = true
    ∧ isNoTok " NO" = true
    ∧ isYesTok "maybe" = false
    ∧ (rerankViaChat s6responses (some 2)).map RerankScored.index = [0, 2]
    ∧ (rerankViaChat s6responses none).map RerankScored.index = [0, 2, 1] := by
  refine ⟨fun y n => rfl, fun y => rfl, ?_, fun text => rfl, by decide,
    by decide, by decide, ?_, ?_⟩
  · intro o
    cases o <;> rfl
  · exact s6_sort_eval.2
  · exact s6_sort_eval.1

end Gateway
